import Mathlib

/-
Shallow embedding of `app.py` from the monitor-estres-coinsi-2025 repository
(a Flask service exposing a behavioural-stress classifier).

Numeric values are modelled as exact rationals (ℚ).  Python dicts are
modelled as insertion-ordered association lists (first-match lookup, new
keys appended at the end, existing keys updated in place), which matches
CPython dict semantics for the operations the service uses.  Calls into
the external scikit-learn objects (`predict`, `predict_proba`,
`transform`) are modelled as functions returning `Except String _`, so a
raised exception is an `.error` value; Python `try/except` blocks become
matches on those values.  The history file on disk is a `FileState`
(missing, unparseable, or holding a list of results), and a write attempt
either succeeds or raises, the exception being caught inside `save_data`.
-/

namespace StressMonitor

abbrev Q := ℚ

/-- A Python dict with string keys, as an insertion-ordered association list. -/
abbrev Features := List (String × Q)

/-- First-match association-list lookup (`d[k]` / `k in d` for a Python dict;
dict keys are unique, so first-match agrees with dict lookup). -/
def alookup {β : Type} : List (String × β) → String → Option β
  | [], _ => none
  | (k, v) :: rest, key => if k = key then some v else alookup rest key

/-- `key in features` (Python membership test on the dict). -/
def hasKey (fs : Features) (k : String) : Bool := (alookup fs k).isSome

/-- Update the value at an existing key in place, preserving dict order. -/
def aupdate {β : Type} (m : List (String × β)) (key : String) (f : β → β) :
    List (String × β) :=
  m.map (fun kv => if kv.1 = key then (kv.1, f kv.2) else kv)

/-- `default_features` from `analyze_stress` (app.py lines 168-176). -/
def default_features : Features :=
  [("keys_per_minute", 45),
   ("avg_key_latency", 150),
   ("std_key_latency", 25),
   ("error_rate", 2/100),
   ("clicks_per_minute", 12),
   ("total_mouse_distance", 1200),
   ("avg_mouse_speed", 350)]

/-- `feature_order` from `analyze_stress_with_features` (app.py lines 232-240). -/
def feature_order : List String :=
  ["keys_per_minute",
   "avg_key_latency",
   "std_key_latency",
   "error_rate",
   "clicks_per_minute",
   "total_mouse_distance",
   "avg_mouse_speed"]

/-- The defaulting loop in `analyze_stress` (app.py lines 179-181):
`for key, value in default_features.items(): if key not in features:
features[key] = value`.  Assigning a fresh key to a Python dict appends it
at the end. -/
def completeFeatures (fs : Features) : Features :=
  default_features.foldl
    (fun acc kv => if hasKey acc kv.1 then acc else acc ++ [kv]) fs

/-- `X = np.array([[features.get(f, 0) for f in feature_order]])`
(app.py line 243), modelled as the single row. -/
def featureVector (fs : Features) : List Q :=
  feature_order.map (fun f => (alookup fs f).getD 0)

/-- The default the table holds for a metric name (0 for unknown names). -/
def defaultOf (k : String) : Q := (alookup default_features k).getD 0

/-- An external scikit-learn estimator: `model.predict(X)[0]` coerced with
`int(...)`, and `model.predict_proba(X)[0]`, both on a single row, both
able to raise. -/
structure Estimator where
  predict : List Q → Except String Int
  predict_proba : List Q → Except String (List Q)

/-- An external scaler: `scaler.transform(X)` on a single row, able to raise. -/
structure Scaler where
  transform : List Q → Except String (List Q)

/-- The prediction block of `analyze_stress_with_features` (app.py lines
246-254): with a separate scaler, transform first, then predict and
predict_proba on the scaled row; without one, predict directly.  Any raise
propagates out of the block (to the surrounding `except`). -/
def runPrediction (m : Estimator) (scaler : Option Scaler) (X : List Q) :
    Except String (Int × List Q) :=
  match scaler with
  | some s =>
    match s.transform X with
    | .error e => .error e
    | .ok Xs =>
      match m.predict Xs with
      | .error e => .error e
      | .ok p =>
        match m.predict_proba Xs with
        | .error e => .error e
        | .ok pr => .ok (p, pr)
  | none =>
    match m.predict X with
    | .error e => .error e
    | .ok p =>
      match m.predict_proba X with
      | .error e => .error e
      | .ok pr => .ok (p, pr)

/-- The three class probabilities, in the fixed order bajo, medio, alto. -/
structure Probs where
  bajo : Q
  medio : Q
  alto : Q
deriving DecidableEq

/-- The tied fallback probabilities 0.33 / 0.34 / 0.33. -/
def fallbackProbs : Probs := ⟨33/100, 34/100, 33/100⟩

/-- A JSON analysis result as produced by the service.  Fields that some
paths omit are `Option`s.  The timestamp (wall clock, external) is not
modelled. -/
structure AnalysisResult where
  success : Bool
  stress_level : Int
  stress_label : String
  probabilities : Option Probs
  error : Option String
  warning : Option String
  features_used : Option Features
deriving DecidableEq

/-- `['BAJO', 'MEDIO', 'ALTO']` (app.py line 264). -/
def stress_labels : List String := ["BAJO", "MEDIO", "ALTO"]

/-- The `if not model` early return of `analyze_stress_with_features`
(app.py lines 217-228). -/
def modelUnavailableResult : AnalysisResult :=
  ⟨false, 1, "MEDIO", some fallbackProbs, some "Modelo no disponible", none, none⟩

/-- The `except` branch of `analyze_stress_with_features`
(app.py lines 272-285). -/
def predictionErrorResult (e : String) : AnalysisResult :=
  ⟨false, 1, "MEDIO", some fallbackProbs, some e, none, none⟩

/-- `analyze_stress_with_features` (app.py lines 215-285).  The success
branch indexes `probabilities[0..2]`; if the returned row has fewer than 3
entries the IndexError is caught by the same `except`, so it lands in the
error result.  A prediction outside [0, 2] is clamped to 1 before the
label lookup. -/
def analyze_stress_with_features (model : Option Estimator)
    (scaler : Option Scaler) (features : Features) : AnalysisResult :=
  match model with
  | none => modelUnavailableResult
  | some m =>
    match runPrediction m scaler (featureVector features) with
    | .error e => predictionErrorResult e
    | .ok (pRaw, probs) =>
      match probs with
      | p0 :: p1 :: p2 :: _ =>
        let prediction : Int := if pRaw < 0 ∨ pRaw > 2 then 1 else pRaw
        ⟨true, prediction, stress_labels.getD prediction.toNat "",
         some ⟨p0, p1, p2⟩, none, none, none⟩
      | _ => predictionErrorResult "IndexError: list index out of range"

/-- An event record, opaque to the core (appended verbatim). -/
abbrev Event := String

/-- A monitoring session (app.py lines 103-107). -/
structure Session where
  start_time : String
  events : List Event
  analyses : List AnalysisResult

/-- The global `sessions` dict. -/
abbrev Sessions := List (String × Session)

/-- The body of a `/api/record_events` response. -/
inductive RecordResponse where
  | notFound
  | ok (events_recorded : Nat) (total_events : Nat)
deriving DecidableEq

/-- `record_events` (app.py lines 120-141): the guard is
`if not session_id or session_id not in sessions: return 404`, so an
absent id, an empty-string id (falsy) and an unknown id all yield 404
before any mutation; otherwise the events are extended onto the session
and the response reports the new counts.  Returns (new sessions map, HTTP
status, body). -/
def record_events (sessions : Sessions) (session_id : Option String)
    (events : List Event) : Sessions × Nat × RecordResponse :=
  match session_id with
  | none => (sessions, 404, .notFound)
  | some sid =>
    if sid = "" then (sessions, 404, .notFound)
    else
      match alookup sessions sid with
      | none => (sessions, 404, .notFound)
      | some s =>
        (aupdate sessions sid (fun t => ⟨t.start_time, t.events ++ events, t.analyses⟩),
         200, .ok events.length (s.events.length + events.length))

/-- The history file on disk. -/
inductive FileState where
  | missing
  | corrupt
  | good (content : List AnalysisResult)
deriving DecidableEq

/-- `load_data` (app.py lines 73-81): a missing file returns `[]`, a raise
while reading or parsing is caught and returns `[]`. -/
def load_data : FileState → List AnalysisResult
  | .good h => h
  | _ => []

/-- Whether the actual write raises, an external circumstance. -/
inductive WriteAttempt where
  | ok
  | ioError (msg : String)

/-- `save_data` (app.py lines 83-89): on success the file now holds
exactly `data`; a raise is caught inside the function, so the second
component (the exception propagated to the caller) is always `none`. -/
def save_data : FileState → List AnalysisResult → WriteAttempt →
    FileState × Option String
  | _, data, .ok => (.good data, none)
  | fs, _, .ioError _ => (fs, none)

/-- Python `l[-n:]`: the last `n` elements (the whole list when shorter). -/
def lastN {α : Type} (n : Nat) (l : List α) : List α := l.drop (l.length - n)

/-- One history update (app.py lines 198-200): `history = load_data();
history.append(result); save_data(history[-100:])` — the content handed to
`save_data`. -/
def historyStep (h : List AnalysisResult) (r : AnalysisResult) :
    List AnalysisResult :=
  lastN 100 (h ++ [r])

/-- The stored history after a run of successful, successfully-written
analyses producing the results `rs`, starting from content `h`. -/
def historyAfter (h : List AnalysisResult) (rs : List AnalysisResult) :
    List AnalysisResult :=
  rs.foldl historyStep h

/-- The mutable server state touched by `/api/analyze`. -/
structure ServerState where
  sessions : Sessions
  dataFile : FileState

/-- The `if not model` early return of `analyze_stress` (app.py lines
151-165): success true, MEDIO, tied probabilities, a warning, and
`features_used` echoing the request's raw `features` dict verbatim. -/
def analyzeFallbackResult (features : Features) : AnalysisResult :=
  ⟨true, 1, "MEDIO", some fallbackProbs, none,
   some "Modelo no disponible, usando predicción por defecto", some features⟩

/-- Copy of a result with `features_used` set
(`result['features_used'] = features`, app.py line 190). -/
def withFeaturesUsed (r : AnalysisResult) (fs : Features) : AnalysisResult :=
  ⟨r.success, r.stress_level, r.stress_label, r.probabilities, r.error,
   r.warning, some fs⟩

/-- `analyze_stress` (app.py lines 143-213), request body already parsed
into the `features` dict and optional `session_id`.  Returns (new state,
HTTP status, body).  With no model it short-circuits before defaulting,
session append and history write.  Otherwise: default the missing
features, classify, tag `features_used` with the completed dict, append to
the session's analyses when the id is truthy and known, and on success
rewrite the history file with the last 100 entries. -/
def analyze_stress (model : Option Estimator) (scaler : Option Scaler)
    (st : ServerState) (features : Features) (session_id : Option String)
    (w : WriteAttempt) : ServerState × Nat × AnalysisResult :=
  match model with
  | none => (st, 200, analyzeFallbackResult features)
  | some _ =>
    let completed := completeFeatures features
    let result := withFeaturesUsed
      (analyze_stress_with_features model scaler completed) completed
    let sessions1 :=
      match session_id with
      | some sid =>
        if sid = "" then st.sessions
        else
          match alookup st.sessions sid with
          | some _ =>
            aupdate st.sessions sid
              (fun t => ⟨t.start_time, t.events, t.analyses ++ [result]⟩)
          | none => st.sessions
      | none => st.sessions
    let dataFile1 :=
      if result.success then
        (save_data st.dataFile (historyStep (load_data st.dataFile) result) w).1
      else st.dataFile
    (⟨sessions1, dataFile1⟩, 200, result)

/-- The `/api/analyze` route with its outer `try/except` (app.py lines
204-213): a raise while reading the request body is caught and answered
with status 200 and a success-false MEDIO body. -/
def analyze_stress_route (model : Option Estimator) (scaler : Option Scaler)
    (st : ServerState) (req : Except String (Features × Option String))
    (w : WriteAttempt) : ServerState × Nat × AnalysisResult :=
  match req with
  | .error e => (st, 200, ⟨false, 1, "MEDIO", none, some e, none, none⟩)
  | .ok (features, sid) => analyze_stress model scaler st features sid w

/-- A deserialized model artifact: either a Python dict (`mapping`) or any
other object. -/
inductive LoadedObject (α : Type) where
  | mapping (entries : List (String × α))
  | object (x : α)
deriving DecidableEq

/-- The load-time shape detection (app.py lines 33-53): a dict with both a
"model" and a "scaler" entry is a paired bundle; otherwise a dict with a
"pipeline" entry is pipeline-only (no scaler); any other dict is itself
used as the model with no scaler; a non-dict is itself the model with no
scaler.  Returns (model, optional scaler). -/
def detectModel {α : Type} : LoadedObject α → LoadedObject α × Option α
  | .mapping es =>
    (match alookup es "model", alookup es "scaler" with
     | some m, some s => (.object m, some s)
     | _, _ =>
       match alookup es "pipeline" with
       | some p => (.object p, none)
       | none => (.mapping es, none))
  | .object x => (.object x, none)

/-- Sum of the three probability fields. -/
def sumP (p : Probs) : Q := p.bajo + p.medio + p.alto

/-- An estimator whose `predict` raises, for exercising the error path. -/
def failingEstimator : Estimator :=
  ⟨fun _ => .error "boom", fun _ => .ok []⟩

/-- An estimator returning the out-of-range class index 5. -/
def outOfRangeEstimator : Estimator :=
  ⟨fun _ => .ok 5, fun _ => .ok [1/4, 1/4, 1/2]⟩

/-- A well-behaved 3-class estimator. -/
def threeClassEstimator : Estimator :=
  ⟨fun _ => .ok 1, fun _ => .ok [1/4, 1/4, 1/2]⟩

/-- A concrete analysis result, used to instantiate history statements. -/
def sampleResult : AnalysisResult :=
  ⟨true, 1, "MEDIO", some fallbackProbs, none, none, none⟩

/-! ## Helper lemmas -/

theorem alookup_append {β : Type} (a b : List (String × β)) (k : String) :
    alookup (a ++ b) k =
      match alookup a k with
      | some v => some v
      | none => alookup b k := by
  induction a with
  | nil => rfl
  | cons kv rest ih =>
    obtain ⟨k0, v0⟩ := kv
    by_cases h : k0 = k
    · simp [alookup, h]
    · simp [alookup, h, ih]

/-! ## Claim theorems -/

/-- C1: if the model bundle failed to load, every `/api/analyze` call
returns the deterministic fallback result — success true, stress_level 1,
label MEDIO, probabilities 0.33/0.34/0.33, a warning — with HTTP status
200 and the server state untouched (no classifier invocation, no session
or history write). -/
theorem analyze_model_unavailable_fallback (scaler : Option Scaler)
    (st : ServerState) (features : Features) (sid : Option String)
    (w : WriteAttempt) :
    analyze_stress none scaler st features sid w =
      (st, 200,
        ⟨true, 1, "MEDIO", some ⟨33/100, 34/100, 33/100⟩, none,
         some "Modelo no disponible, usando predicción por defecto",
         some features⟩) := rfl

/-- C5: a raise anywhere in the prediction block is caught and converted
into a success-false result with stress_level 1, label MEDIO and the error
message, and `/api/analyze` answers with HTTP status 200 on every path
(also when parsing the request body raises). -/
theorem classification_errors_degrade :
    (∀ (m : Estimator) (scaler : Option Scaler) (fs : Features) (e : String),
       runPrediction m scaler (featureVector fs) = .error e →
       analyze_stress_with_features (some m) scaler fs =
         ⟨false, 1, "MEDIO", some fallbackProbs, some e, none, none⟩) ∧
    (∀ (model : Option Estimator) (scaler : Option Scaler) (st : ServerState)
       (features : Features) (sid : Option String) (w : WriteAttempt),
       (analyze_stress model scaler st features sid w).2.1 = 200) ∧
    (∀ (model : Option Estimator) (scaler : Option Scaler) (st : ServerState)
       (req : Except String (Features × Option String)) (w : WriteAttempt),
       (analyze_stress_route model scaler st req w).2.1 = 200) := by
  refine ⟨?_, ?_, ?_⟩
  · intro m scaler fs e h
    simp [analyze_stress_with_features, h, predictionErrorResult]
  · intro model scaler st features sid w
    cases model <;> rfl
  · intro model scaler st req w
    cases req with
    | error e => rfl
    | ok p =>
      obtain ⟨features, sid⟩ := p
      cases model <;> rfl

/-- Witness for C5: a predictor that raises yields the caught-error result. -/
theorem classification_errors_degrade_witness :
    analyze_stress_with_features (some failingEstimator) none [] =
      ⟨false, 1, "MEDIO", some fallbackProbs, some "boom", none, none⟩ :=
  classification_errors_degrade.1 failingEstimator none [] "boom" rfl

/-- C7: `/api/record_events` with an absent session id, or an id not in
the session store, returns 404 with no mutation of the store and no events
recorded. -/
theorem record_events_unknown_session_404 :
    (∀ (sessions : Sessions) (events : List Event),
       record_events sessions none events = (sessions, 404, .notFound)) ∧
    (∀ (sessions : Sessions) (sid : String) (events : List Event),
       alookup sessions sid = none →
       record_events sessions (some sid) events = (sessions, 404, .notFound)) := by
  constructor
  · intro sessions events; rfl
  · intro sessions sid events h
    by_cases hs : sid = ""
    · simp [record_events, hs]
    · simp [record_events, hs, h]

/-- Witness for C7 at a concrete unknown session id. -/
theorem record_events_unknown_session_404_witness :
    record_events [] (some "s1") ["e"] = ([], 404, .notFound) :=
  record_events_unknown_session_404.2 [] "s1" ["e"] rfl

/-- C8: `load_data` never raises — a missing file and an unreadable or
corrupt file both give the empty history, a readable file gives its
content — and `save_data` swallows write failures (the propagated
exception component is always `none`) while a successful write stores
exactly the given data. -/
theorem load_save_robust :
    load_data .missing = [] ∧
    load_data .corrupt = [] ∧
    (∀ h : List AnalysisResult, load_data (.good h) = h) ∧
    (∀ (fs : FileState) (data : List AnalysisResult) (w : WriteAttempt),
       (save_data fs data w).2 = none) ∧
    (∀ (fs : FileState) (data : List AnalysisResult),
       (save_data fs data .ok).1 = .good data) := by
  refine ⟨rfl, rfl, fun h => rfl, fun fs data w => ?_, fun fs data => rfl⟩
  cases w <;> rfl

/-- C10: when the model is unavailable the fallback response echoes the
caller's raw feature mapping verbatim as `features_used`, whereas the
model-available path reports the default-completed mapping. -/
theorem fallback_features_used_verbatim :
    (∀ (scaler : Option Scaler) (st : ServerState) (features : Features)
       (sid : Option String) (w : WriteAttempt),
       ((analyze_stress none scaler st features sid w).2.2).features_used =
         some features) ∧
    (∀ (m : Estimator) (scaler : Option Scaler) (st : ServerState)
       (features : Features) (sid : Option String) (w : WriteAttempt),
       ((analyze_stress (some m) scaler st features sid w).2.2).features_used =
         some (completeFeatures features)) := by
  constructor
  · intro scaler st features sid w
    rfl
  · intro m scaler st features sid w
    rfl

/-- C4: load-time shape detection precedence — a mapping with both a
"model" and a "scaler" entry is treated as a paired bundle; otherwise a
mapping with a "pipeline" entry is pipeline-only with no scaler; otherwise
the artifact itself is the estimator with no scaler — and at prediction
time the scaler's transform is applied before predict/predict_proba
exactly when a separate scaler is present. -/
theorem model_shape_detection_precedence :
    (∀ (α : Type) (es : List (String × α)) (m s : α),
       alookup es "model" = some m → alookup es "scaler" = some s →
       detectModel (.mapping es) = (.object m, some s)) ∧
    (∀ (α : Type) (es : List (String × α)) (p : α),
       (alookup es "model" = none ∨ alookup es "scaler" = none) →
       alookup es "pipeline" = some p →
       detectModel (.mapping es) = (.object p, none)) ∧
    (∀ (α : Type) (es : List (String × α)),
       (alookup es "model" = none ∨ alookup es "scaler" = none) →
       alookup es "pipeline" = none →
       detectModel (.mapping es) = (.mapping es, none)) ∧
    (∀ (α : Type) (x : α), detectModel (.object x) = (.object x, none)) ∧
    (∀ (m : Estimator) (s : Scaler) (X Xs : List Q),
       s.transform X = .ok Xs →
       runPrediction m (some s) X = runPrediction m none Xs) ∧
    (∀ (m : Estimator) (s : Scaler) (X : List Q) (e : String),
       s.transform X = .error e →
       runPrediction m (some s) X = .error e) := by
  refine ⟨?_, ?_, ?_, ?_, ?_, ?_⟩
  · intro α es m s hm hs
    simp [detectModel, hm, hs]
  · intro α es p hms hp
    cases e1 : alookup es "model" with
    | none => simp [detectModel, e1, hp]
    | some m1 =>
      cases e2 : alookup es "scaler" with
      | none => simp [detectModel, e1, e2, hp]
      | some s1 =>
        rcases hms with h | h
        · rw [e1] at h; exact absurd h (by simp)
        · rw [e2] at h; exact absurd h (by simp)
  · intro α es hms hp
    cases e1 : alookup es "model" with
    | none => simp [detectModel, e1, hp]
    | some m1 =>
      cases e2 : alookup es "scaler" with
      | none => simp [detectModel, e1, e2, hp]
      | some s1 =>
        rcases hms with h | h
        · rw [e1] at h; exact absurd h (by simp)
        · rw [e2] at h; exact absurd h (by simp)
  · intro α x; rfl
  · intro m s X Xs h
    simp [runPrediction, h]
  · intro m s X e h
    simp [runPrediction, h]

/-- Witness for C4: a paired dict artifact resolves to its model and scaler. -/
theorem model_shape_detection_precedence_witness :
    detectModel (LoadedObject.mapping [("model", (0 : Nat)), ("scaler", 1)]) =
      (.object 0, some 1) :=
  model_shape_detection_precedence.1 Nat [("model", 0), ("scaler", 1)] 0 1
    (by decide) (by decide)

/-- C6: a prediction index outside [0, 2] is clamped to 1, so every result
has stress_level in {0, 1, 2} and its stress_label is exactly the entry of
['BAJO', 'MEDIO', 'ALTO'] at that index (on fallback paths too). -/
theorem prediction_clamped_and_label_in_bounds :
    (∀ (m : Estimator) (scaler : Option Scaler) (fs : Features) (pRaw : Int)
       (p0 p1 p2 : Q) (rest : List Q),
       runPrediction m scaler (featureVector fs) =
         .ok (pRaw, p0 :: p1 :: p2 :: rest) →
       (analyze_stress_with_features (some m) scaler fs).stress_level =
         (if pRaw < 0 ∨ pRaw > 2 then 1 else pRaw)) ∧
    (∀ (model : Option Estimator) (scaler : Option Scaler) (fs : Features),
       ((analyze_stress_with_features model scaler fs).stress_level = 0 ∨
        (analyze_stress_with_features model scaler fs).stress_level = 1 ∨
        (analyze_stress_with_features model scaler fs).stress_level = 2) ∧
       (analyze_stress_with_features model scaler fs).stress_label =
         stress_labels.getD
           (analyze_stress_with_features model scaler fs).stress_level.toNat
           "") := by
  constructor
  · intro m scaler fs pRaw p0 p1 p2 rest h
    simp [analyze_stress_with_features, h]
  · intro model scaler fs
    cases model with
    | none => exact ⟨Or.inr (Or.inl rfl), rfl⟩
    | some m =>
      rcases hr : runPrediction m scaler (featureVector fs) with e | pp
      · simp [analyze_stress_with_features, hr, predictionErrorResult]
        decide
      · obtain ⟨pRaw, probs⟩ := pp
        match probs with
        | [] =>
          simp [analyze_stress_with_features, hr, predictionErrorResult]
          decide
        | [p0] =>
          simp [analyze_stress_with_features, hr, predictionErrorResult]
          decide
        | [p0, p1] =>
          simp [analyze_stress_with_features, hr, predictionErrorResult]
          decide
        | p0 :: p1 :: p2 :: rest =>
          by_cases hc : pRaw < 0 ∨ pRaw > 2
          · simp [analyze_stress_with_features, hr, hc]
          · simp [analyze_stress_with_features, hr, hc]
            omega

/-- Witness for C6: a predictor returning class index 5 is clamped. -/
theorem prediction_clamped_witness :
    (analyze_stress_with_features (some outOfRangeEstimator) none []).stress_level =
      (if (5 : Int) < 0 ∨ (5 : Int) > 2 then 1 else 5) :=
  prediction_clamped_and_label_in_bounds.1 outOfRangeEstimator none [] 5
    (1/4) (1/4) (1/2) [] rfl

/-- C9: every result carries exactly the 3 probabilities in the fixed
order bajo/medio/alto — the tied 0.33/0.34/0.33 on both fallback paths
(which sum to 1.00 exactly), and the classifier's 3-entry row on the
success path, whose sum is within 1e-6 of 1 whenever the external
classifier honours its contract of returning 3 class probabilities
summing to 1. -/
theorem probabilities_well_formed :
    (∀ (scaler : Option Scaler) (fs : Features),
       (analyze_stress_with_features none scaler fs).probabilities =
         some fallbackProbs) ∧
    (∀ (scaler : Option Scaler) (st : ServerState) (features : Features)
       (sid : Option String) (w : WriteAttempt),
       ((analyze_stress none scaler st features sid w).2.2).probabilities =
         some fallbackProbs) ∧
    |sumP fallbackProbs - 1| ≤ 1/1000000 ∧
    (∀ (m : Estimator) (scaler : Option Scaler) (fs : Features) (e : String),
       runPrediction m scaler (featureVector fs) = .error e →
       (analyze_stress_with_features (some m) scaler fs).probabilities =
         some fallbackProbs) ∧
    (∀ (m : Estimator) (scaler : Option Scaler) (fs : Features) (pRaw : Int)
       (p0 p1 p2 : Q),
       runPrediction m scaler (featureVector fs) = .ok (pRaw, [p0, p1, p2]) →
       p0 + p1 + p2 = 1 →
       ∃ p : Probs,
         (analyze_stress_with_features (some m) scaler fs).probabilities =
           some p ∧
         p = ⟨p0, p1, p2⟩ ∧ |sumP p - 1| ≤ 1/1000000) := by
  refine ⟨?_, ?_, ?_, ?_, ?_⟩
  · intro scaler fs; rfl
  · intro scaler st features sid w; rfl
  · simp [sumP, fallbackProbs]
    norm_num
  · intro m scaler fs e h
    simp [analyze_stress_with_features, h, predictionErrorResult]
  · intro m scaler fs pRaw p0 p1 p2 h hsum
    refine ⟨⟨p0, p1, p2⟩, ?_, rfl, ?_⟩
    · simp [analyze_stress_with_features, h]
    · simp [sumP, hsum]

/-- Witness for C9 on the success path with a concrete 3-class estimator. -/
theorem probabilities_well_formed_witness :
    ∃ p : Probs,
      (analyze_stress_with_features (some threeClassEstimator) none
          []).probabilities = some p ∧
      p = ⟨1/4, 1/4, 1/2⟩ ∧ |sumP p - 1| ≤ 1/1000000 :=
  probabilities_well_formed.2.2.2.2 threeClassEstimator none [] 1
    (1/4) (1/4) (1/2) rfl (by norm_num)

theorem alookup_eq_none_iff {β : Type} (l : List (String × β)) (k : String) :
    alookup l k = none ↔ k ∉ l.map Prod.fst := by
  induction l with
  | nil => simp [alookup]
  | cons kv rest ih =>
    obtain ⟨k0, v0⟩ := kv
    by_cases h : k0 = k
    · subst h
      simp [alookup]
    · have hne : ¬k = k0 := fun hc => h hc.symm
      simp [alookup, h, ih, hne]

theorem alookup_mem_of_eq_some {β : Type} (l : List (String × β)) (k : String)
    (v : β) (h : alookup l k = some v) : (k, v) ∈ l := by
  induction l with
  | nil => simp [alookup] at h
  | cons kv rest ih =>
    obtain ⟨k0, v0⟩ := kv
    by_cases hk : k0 = k
    · subst hk
      simp [alookup] at h
      simp [h]
    · simp [alookup, hk] at h
      exact List.mem_cons_of_mem _ (ih h)

theorem alookup_eq_some_of_nodup {β : Type} (l : List (String × β)) (k : String)
    (v : β) (hnd : (l.map Prod.fst).Nodup) (hmem : (k, v) ∈ l) :
    alookup l k = some v := by
  induction l with
  | nil => simp at hmem
  | cons kv rest ih =>
    obtain ⟨k0, v0⟩ := kv
    simp only [List.map_cons, List.nodup_cons] at hnd
    rcases List.mem_cons.mp hmem with heq | hrest
    · injection heq with h1 h2
      subst h1
      subst h2
      simp [alookup]
    · have hk : k0 ≠ k := by
        intro hco
        subst hco
        exact hnd.1 (List.mem_map.mpr ⟨(k0, v), hrest, rfl⟩)
      simp only [alookup, hk, if_false]
      exact ih hnd.2 hrest

theorem alookup_perm {β : Type} (l1 l2 : List (String × β)) (k : String)
    (hp : l1.Perm l2) (hnd : (l1.map Prod.fst).Nodup) :
    alookup l1 k = alookup l2 k := by
  have hnd2 : (l2.map Prod.fst).Nodup := ((hp.map Prod.fst).nodup_iff).mp hnd
  cases hl : alookup l1 k with
  | some v =>
    exact (alookup_eq_some_of_nodup l2 k v hnd2
      (hp.mem_iff.mp (alookup_mem_of_eq_some l1 k v hl))).symm
  | none =>
    refine ((alookup_eq_none_iff l2 k).mpr fun hm => ?_).symm
    exact (alookup_eq_none_iff l1 k).mp hl ((hp.map Prod.fst).mem_iff.mpr hm)

theorem completeFold_preserves (ds : List (String × Q)) (acc : Features)
    (k : String) (v : Q) (h : alookup acc k = some v) :
    alookup
      (ds.foldl (fun a kv => if hasKey a kv.1 then a else a ++ [kv]) acc) k =
      some v := by
  induction ds generalizing acc with
  | nil => simpa using h
  | cons kv rest ih =>
    simp only [List.foldl_cons]
    apply ih
    cases hk : hasKey acc kv.1 with
    | true => simpa [hk] using h
    | false => simp [hk, alookup_append, h]

theorem completeFold_fills (ds : List (String × Q)) (acc : Features)
    (k : String) (d : Q) (hmem : (k, d) ∈ ds)
    (hnd : (ds.map Prod.fst).Nodup) :
    alookup
      (ds.foldl (fun a kv => if hasKey a kv.1 then a else a ++ [kv]) acc) k =
      some ((alookup acc k).getD d) := by
  induction ds generalizing acc with
  | nil => simp at hmem
  | cons kv rest ih =>
    simp only [List.map_cons, List.nodup_cons] at hnd
    simp only [List.foldl_cons]
    rcases List.mem_cons.mp hmem with heq | hrest
    · cases heq
      cases hl : alookup acc k with
      | some v =>
        have hk : hasKey acc k = true := by simp [hasKey, hl]
        simp only [hk, if_true]
        simpa [hl] using completeFold_preserves rest acc k v hl
      | none =>
        have hk : hasKey acc k = false := by simp [hasKey, hl]
        simp only [hk]
        have hstep : alookup (acc ++ [(k, d)]) k = some d := by
          simp [alookup_append, hl, alookup]
        simpa [hl] using completeFold_preserves rest (acc ++ [(k, d)]) k d hstep
    · have hne : kv.1 ≠ k := by
        intro hco
        exact hnd.1 (hco ▸ List.mem_map.mpr ⟨(k, d), hrest, rfl⟩)
      have hsame :
          alookup (if hasKey acc kv.1 then acc else acc ++ [kv]) k =
            alookup acc k := by
        cases hk : hasKey acc kv.1 with
        | true => simp [hk]
        | false =>
          rw [if_neg (by decide)]
          rw [alookup_append]
          cases alookup acc k with
          | some v => rfl
          | none => simp [alookup, hne]
      rw [ih (if hasKey acc kv.1 then acc else acc ++ [kv]) hrest hnd.2, hsame]

theorem complete_lookup (fs : Features) (k : String) (d : Q)
    (hmem : (k, d) ∈ default_features) :
    alookup (completeFeatures fs) k = some ((alookup fs k).getD d) :=
  completeFold_fills default_features fs k d hmem (by decide)

/-- C2: defaulting fills exactly the absent metrics from the fixed table,
leaves provided values untouched, and the vector handed to the classifier
lists the 7 metrics in the fixed canonical order — so it is invariant
under reordering of the input mapping. -/
theorem feature_defaulting_spec :
    (∀ (fs : Features) (k : String) (d : Q), (k, d) ∈ default_features →
       alookup (completeFeatures fs) k = some ((alookup fs k).getD d)) ∧
    (∀ (fs : Features) (k : String) (v : Q), alookup fs k = some v →
       alookup (completeFeatures fs) k = some v) ∧
    (∀ fs : Features,
       featureVector (completeFeatures fs) =
         [(alookup fs "keys_per_minute").getD 45,
          (alookup fs "avg_key_latency").getD 150,
          (alookup fs "std_key_latency").getD 25,
          (alookup fs "error_rate").getD (2/100),
          (alookup fs "clicks_per_minute").getD 12,
          (alookup fs "total_mouse_distance").getD 1200,
          (alookup fs "avg_mouse_speed").getD 350]) ∧
    (∀ fs fs2 : Features, fs.Perm fs2 → (fs.map Prod.fst).Nodup →
       featureVector (completeFeatures fs) =
         featureVector (completeFeatures fs2)) := by
  have hvec : ∀ fs : Features,
      featureVector (completeFeatures fs) =
        [(alookup fs "keys_per_minute").getD 45,
         (alookup fs "avg_key_latency").getD 150,
         (alookup fs "std_key_latency").getD 25,
         (alookup fs "error_rate").getD (2/100),
         (alookup fs "clicks_per_minute").getD 12,
         (alookup fs "total_mouse_distance").getD 1200,
         (alookup fs "avg_mouse_speed").getD 350] := by
    intro fs
    simp only [featureVector, feature_order, List.map_cons, List.map_nil]
    rw [complete_lookup fs "keys_per_minute" 45 (by simp [default_features]),
      complete_lookup fs "avg_key_latency" 150 (by simp [default_features]),
      complete_lookup fs "std_key_latency" 25 (by simp [default_features]),
      complete_lookup fs "error_rate" (2/100) (by simp [default_features]),
      complete_lookup fs "clicks_per_minute" 12 (by simp [default_features]),
      complete_lookup fs "total_mouse_distance" 1200 (by simp [default_features]),
      complete_lookup fs "avg_mouse_speed" 350 (by simp [default_features])]
    simp
  refine ⟨complete_lookup, ?_, hvec, ?_⟩
  · intro fs k v h
    exact completeFold_preserves default_features fs k v h
  · intro fs fs2 hp hnd
    rw [hvec fs, hvec fs2,
      alookup_perm fs fs2 "keys_per_minute" hp hnd,
      alookup_perm fs fs2 "avg_key_latency" hp hnd,
      alookup_perm fs fs2 "std_key_latency" hp hnd,
      alookup_perm fs fs2 "error_rate" hp hnd,
      alookup_perm fs fs2 "clicks_per_minute" hp hnd,
      alookup_perm fs fs2 "total_mouse_distance" hp hnd,
      alookup_perm fs fs2 "avg_mouse_speed" hp hnd]

/-- Witness for C2: a mapping providing only error_rate gets
keys_per_minute filled with its default 45. -/
theorem feature_defaulting_spec_witness :
    alookup (completeFeatures [("error_rate", 5/100)]) "keys_per_minute" =
      some ((alookup ([("error_rate", 5/100)] : Features)
        "keys_per_minute").getD 45) :=
  feature_defaulting_spec.1 [("error_rate", 5/100)] "keys_per_minute" 45
    (by simp [default_features])

theorem lastN_length_le {α : Type} (n : Nat) (l : List α) :
    (lastN n l).length ≤ n := by
  simp only [lastN, List.length_drop]
  omega

theorem lastN_of_le {α : Type} (n : Nat) (l : List α) (h : l.length ≤ n) :
    lastN n l = l := by
  simp [lastN, Nat.sub_eq_zero_of_le h]

theorem lastN_cons_of_le {α : Type} (n : Nat) (x : α) (l : List α)
    (h : n ≤ l.length) : lastN n (x :: l) = lastN n l := by
  simp only [lastN, List.length_cons]
  have he : l.length + 1 - n = (l.length - n) + 1 := by omega
  rw [he, List.drop_succ_cons]

theorem lastN_lastN_append {α : Type} (n : Nat) (l1 l2 : List α) :
    lastN n (lastN n l1 ++ l2) = lastN n (l1 ++ l2) := by
  induction l1 with
  | nil => simp [lastN]
  | cons x t ih =>
    by_cases h : t.length + 1 ≤ n
    · rw [lastN_of_le n (x :: t) (by simpa using h)]
    · have hn : n ≤ t.length := by omega
      rw [lastN_cons_of_le n x t hn, ih, List.cons_append,
        lastN_cons_of_le n x (t ++ l2) (by simp; omega)]

theorem historyAfter_nil_eq_lastN (rs : List AnalysisResult) :
    historyAfter [] rs = lastN 100 rs := by
  induction rs using List.reverseRecOn with
  | nil => rfl
  | append_singleton l a ih =>
    simp only [historyAfter, List.foldl_append, List.foldl_cons,
      List.foldl_nil] at ih ⊢
    rw [ih, historyStep, lastN_lastN_append]

theorem historyStep_length_le (h : List AnalysisResult) (r : AnalysisResult) :
    (historyStep h r).length ≤ 100 :=
  lastN_length_le 100 (h ++ [r])

theorem historyFold_length_le (rs : List AnalysisResult)
    (acc : List AnalysisResult) (hacc : acc.length ≤ 100) :
    (rs.foldl historyStep acc).length ≤ 100 := by
  induction rs generalizing acc with
  | nil => simpa using hacc
  | cons r t ih =>
    simp only [List.foldl_cons]
    exact ih _ (historyStep_length_le acc r)

/-- C3: the persisted history never exceeds 100 entries after any
(nonempty) run of successful analyses from any starting content; from an
empty history, 150 successful analyses leave exactly the 100 most recent
results in their original append order; and each successful analysis with
a successful write stores exactly `historyStep` of the previous file
content. -/
theorem history_capped_at_100 :
    (∀ (h rs : List AnalysisResult), rs ≠ [] →
       (historyAfter h rs).length ≤ 100) ∧
    (∀ rs : List AnalysisResult, rs.length = 150 →
       historyAfter [] rs = rs.drop 50 ∧ (historyAfter [] rs).length = 100) ∧
    (∀ (m : Estimator) (scaler : Option Scaler) (st : ServerState)
       (features : Features) (sid : Option String),
       ((analyze_stress (some m) scaler st features sid .ok).2.2).success =
         true →
       ((analyze_stress (some m) scaler st features sid .ok).1).dataFile =
         .good (historyStep (load_data st.dataFile)
           ((analyze_stress (some m) scaler st features sid .ok).2.2))) := by
  refine ⟨?_, ?_, ?_⟩
  · intro h rs hne
    match rs with
    | r :: t =>
      simp only [historyAfter, List.foldl_cons]
      exact historyFold_length_le t _ (historyStep_length_le h r)
  · intro rs hlen
    have hmain : historyAfter [] rs = rs.drop 50 := by
      rw [historyAfter_nil_eq_lastN, lastN, hlen]
    refine ⟨hmain, ?_⟩
    rw [hmain]
    simp [hlen]
  · intro m scaler st features sid hsucc
    simp only [analyze_stress] at hsucc ⊢
    rw [if_pos hsucc]
    rfl

/-- Witness for C3: 150 copies of a concrete result collapse to the last
100 of them. -/
theorem history_capped_at_100_witness :
    historyAfter [] (List.replicate 150 sampleResult) =
      (List.replicate 150 sampleResult).drop 50 :=
  (history_capped_at_100.2.1 (List.replicate 150 sampleResult) (by simp)).1

end StressMonitor
